import Mathlib

/-!
Verification of the concurrent pull-based message dispatcher
(`worker/worker.go`, package `worker`).

The development contains three faithful shallow embeddings of the Go source:

1. a pure per-message trace model of `(*PullSubscriber).processMessage`
   (`worker.go` lines 117-153): the observable calls the function performs
   (Nak, Ack, lock operations, handler invocation, semaphore release) as a
   function of the results the external calls would return for that message;

2. a model of `NewPullSubscriber` (`worker.go` lines 46-87): default
   application, the consumer/subscription setup calls, and whether the
   dispatcher goroutine is launched;

3. a small-step interleaving semantics of the whole subscriber: the
   dispatcher loop `startDispatcher` (lines 90-114), any number of
   `processMessage` goroutines, the semaphore, the key-lock registry
   `getKeyMutex` (lines 155-174) and `Stop` (lines 177-189), with one
   transition per Go statement that touches shared state.
-/

namespace Worker

/-- Go `error` values as an opaque inductive.  `deadlineExceeded` stands for
`context.DeadlineExceeded`, the error `Process` returns when the 5-minute
per-message context deadline fires. -/
inductive GoError where
  | deadlineExceeded
  | other (msg : String)
deriving DecidableEq

/-- Observable calls performed by `processMessage` for one message, in
program order.  `nakWithDelay d` is `msg.NakWithDelay(d seconds)`,
`ackCall` is `msg.Ack()`, `getKeyMutexCall k` / `lockAcquire k` /
`lockRelease k` are the `getKeyMutex` lookup and `keyMutex.Lock/Unlock`,
`processInvoked m` is `Handler.Process` under an `m`-minute context
deadline, and `semRelease` is the deferred `<-ps.semaphore`. -/
inductive Event where
  | logError
  | logInfo
  | nakWithDelay (delaySec : Nat)
  | ackCall
  | getKeyMutexCall (key : String)
  | lockAcquire (key : String)
  | lockRelease (key : String)
  | processInvoked (timeoutMin : Nat)
  | semRelease
deriving DecidableEq

/-- The results the external calls made by `processMessage` would return for
one particular message: the handler's `GetLockingKey` and `Process` results
and the queue's `Ack`/`NakWithDelay` results.  `processResult = none` is
success; `some e` is a handler error (including `GoError.deadlineExceeded`
when the 5-minute context deadline fires and the handler returns its
context's error). -/
structure MsgBehaviour where
  getLockingKey : Except GoError String
  processResult : Option GoError
  ackResult : Option GoError
  nakResult : Option GoError

/-- Shallow embedding of `(*PullSubscriber).processMessage` (`worker.go`
lines 117-153) as the list of observable calls it performs, given the
results of the external calls.  Deferred calls run last, in LIFO order:
the key-mutex `Unlock` (deferred after acquisition) precedes the semaphore
release (deferred first). -/
def processMessage (b : MsgBehaviour) : List Event :=
  match b.getLockingKey with
  | .error _ =>
      [Event.logError, Event.nakWithDelay 5, Event.semRelease]
  | .ok key =>
      let body :=
        [Event.logInfo, Event.processInvoked 5] ++
        (match b.processResult with
          | some _ => [Event.logError, Event.nakWithDelay 15]
          | none =>
            match b.ackResult with
            | some _ => [Event.ackCall, Event.logError]
            | none => [Event.ackCall, Event.logInfo])
      if key = "" then
        body ++ [Event.semRelease]
      else
        [Event.getKeyMutexCall key, Event.lockAcquire key] ++ body ++
          [Event.lockRelease key, Event.semRelease]

/-- True when `processMessage` takes one of its two Nak paths: key
extraction failed, or the handler returned an error. -/
def isNakPath (b : MsgBehaviour) : Bool :=
  match b.getLockingKey with
  | .error _ => true
  | .ok _ => b.processResult.isSome

/-- The finalize calls of `processMessage` that actually reached the queue
successfully: the `Ack` if it was issued and did not itself fail, and the
`Nak` if it was issued and did not itself fail. -/
def queueTerminalEvents (b : MsgBehaviour) : List Event :=
  (processMessage b).filter fun ev =>
    match ev with
    | .ackCall => b.ackResult.isNone
    | .nakWithDelay _ => b.nakResult.isNone
    | _ => false

example :
    processMessage
      { getLockingKey := .ok "k", processResult := none,
        ackResult := none, nakResult := none } =
    [Event.getKeyMutexCall "k", Event.lockAcquire "k", Event.logInfo,
     Event.processInvoked 5, Event.ackCall, Event.logInfo,
     Event.lockRelease "k", Event.semRelease] := by decide

example :
    processMessage
      { getLockingKey := .error (.other "bad"), processResult := none,
        ackResult := none, nakResult := some (.other "nakfail") } =
    [Event.logError, Event.nakWithDelay 5, Event.semRelease] := by decide

/-- The data fields of `worker.Config` (`worker.go` lines 14-23).  `Handler`
and `JetStream` are capabilities, modelled separately; `batchSize` and
`maxConcurrent` are Go `int`, `maxWait` is a `time.Duration` in
nanoseconds, both modelled as `Int`. -/
structure Config where
  streamName : String
  subject : String
  durableName : String
  batchSize : Int
  maxConcurrent : Int
  maxWait : Int
deriving DecidableEq

/-- One second of `time.Duration`, in nanoseconds. -/
def secondNs : Int := 1000000000

/-- The default application at the top of `NewPullSubscriber` (`worker.go`
lines 47-56): `BatchSize <= 0` becomes 10, `MaxConcurrent <= 0` becomes 25,
`MaxWait == 0` becomes `30 * time.Second`. -/
def applyDefaults (cfg : Config) : Config :=
  let cfg := if cfg.batchSize ≤ 0 then { cfg with batchSize := 10 } else cfg
  let cfg := if cfg.maxConcurrent ≤ 0 then { cfg with maxConcurrent := 25 } else cfg
  if cfg.maxWait = 0 then { cfg with maxWait := 30 * secondNs } else cfg

abbrev TaskId := Nat
abbrev LockId := Nat
abbrev Key := String

/-- What the handler's `GetLockingKey` returns for one fetched message: a
key, or an error. -/
abbrev MsgSpec := Except GoError Key

instance : DecidableEq MsgSpec := fun a b =>
  match a, b with
  | .ok x, .ok y =>
      if h : x = y then .isTrue (by rw [h])
      else .isFalse (by intro he; injection he; contradiction)
  | .error x, .error y =>
      if h : x = y then .isTrue (by rw [h])
      else .isFalse (by intro he; injection he; contradiction)
  | .ok _, .error _ => .isFalse (by intro he; injection he)
  | .error _, .ok _ => .isFalse (by intro he; injection he)

/-- Program counter of one `processMessage` goroutine, one value per group
of statements between touches of shared state (`worker.go` lines 117-153,
with the `getKeyMutex` body, lines 155-174, inlined at its call site):
`start` is function entry (about to call `GetLockingKey`); `nakKeyErr` is
the key-extraction error branch (lines 122-126) before its Nak; for a
non-empty key, `lockLookup` is the `getKeyMutex` read-locked lookup (lines
156-162), `lockCreate` the write-locked double-checked create (lines
164-171), `lockWait` the pending `keyMutex.Lock()` (line 131); `running`
is the `Handler.Process` invocation (line 146), holding the key lock named
in `lock`; `finalizeMsg` the Ack/Nak after `Process` returned (lines
146-152); `unlockKey` the deferred `keyMutex.Unlock()`; `releaseSem` the
deferred `<-ps.semaphore`; `done` is goroutine exit. -/
inductive ProcPhase where
  | start (spec : MsgSpec)
  | nakKeyErr
  | lockLookup (key : Key)
  | lockCreate (key : Key)
  | lockWait (key : Key) (lk : LockId)
  | running (key : Key) (lock : Option LockId)
  | finalizeMsg (key : Key) (lock : Option LockId)
  | unlockKey (lk : LockId)
  | releaseSem
  | done
deriving DecidableEq

/-- Program counter of the `startDispatcher` goroutine (`worker.go` lines
90-114): `top` is the top of the `for` loop (about to read `ps.active`
under `ps.mu`); `fetching` is the pending `ps.sub.Fetch` call; `dispatching
pending` is the `for _, msg := range msgs` dispatch loop with `pending`
messages left; `sleeping` is the 5-second sleep after a non-timeout fetch
error; `exited` means the goroutine returned. -/
inductive DispPhase where
  | top
  | fetching
  | dispatching (pending : List MsgSpec)
  | sleeping
  | exited
deriving DecidableEq

/-- Point update of a function out of `Nat`. -/
def updFn {β : Type} (f : Nat → β) (i : Nat) (v : β) : Nat → β :=
  fun j => if j = i then v else f j

/-- The shared state of one `PullSubscriber` plus the local program
counters of every goroutine: `cfg` is the stored (defaulted) `ps.config`;
`active` the `ps.active` flag; `unsubscribed` records that
`ps.sub.Unsubscribe()` has been called by `Stop`; `semCount` the number of
slots currently held in `ps.semaphore` (capacity `maxC =
cfg.MaxConcurrent`); `disp` the dispatcher goroutine's program counter;
`registry` the `ps.keyLocks` map as an association list (newest first)
mapping a key to the identity of its `sync.Mutex`; `nextLock` a fresh-name
counter for mutex identities; `heldBy lk` the goroutine currently holding
mutex `lk`; `tasks t` the program counter of `processMessage` goroutine
`t` (`none` if never spawned); `nextTask` a fresh-name counter for
goroutines. -/
structure SysState where
  cfg : Config
  maxC : Nat
  active : Bool
  unsubscribed : Bool
  semCount : Nat
  disp : DispPhase
  registry : List (Key × LockId)
  nextLock : LockId
  heldBy : LockId → Option TaskId
  tasks : TaskId → Option ProcPhase
  nextTask : TaskId

/-- Lookup in the `ps.keyLocks` association list. -/
def lookupKey : List (Key × LockId) → Key → Option LockId
  | [], _ => none
  | (k, lk) :: rest, key => if key = k then some lk else lookupKey rest key

/-- The `PullSubscriber` state built at `worker.go` lines 75-81 from an
already-defaulted config, just before `go ps.startDispatcher()`: active,
subscribed, empty key-lock map, empty semaphore, no worker goroutines. -/
def initState (c : Config) : SysState where
  cfg := c
  maxC := c.maxConcurrent.toNat
  active := true
  unsubscribed := false
  semCount := 0
  disp := .top
  registry := []
  nextLock := 0
  heldBy := fun _ => none
  tasks := fun _ => none
  nextTask := 0

/-- One interleaving step of the subscriber: one Go statement (or
statement group) of the dispatcher goroutine, of a `processMessage`
goroutine, or of a caller of `Stop`.  Each constructor names the source
lines it embeds (`worker.go`).

Dispatcher (`startDispatcher`, lines 90-114): `checkActiveTrue` /
`checkActiveFalse` read `ps.active` under `ps.mu` (lines 92-97);
`fetchTimeout` is `Fetch` returning `nats.ErrTimeout` (line 101, `continue`);
`fetchErr` any other fetch error (lines 104-105, log then sleep);
`sleepDone` the end of the 5-second sleep (line 106, `continue`);
`fetchOk` a successful fetch of at most `BatchSize` messages — impossible
once `Unsubscribe` has been called; `dispatchOne` acquires one semaphore
slot (blocking while `semCount = maxC`) and spawns one `processMessage`
goroutine (lines 110-112); `dispatchDone` ends the range loop.

`Stop` (lines 177-189): `stopActive` runs the whole body under `ps.mu`
when `ps.active` is true — clears `active` and calls `Unsubscribe`;
`stopNoop` is the early return when already stopped (lines 180-182).

Worker goroutine (`processMessage`, lines 117-153, and `getKeyMutex`,
lines 155-174): `keyErr` is `GetLockingKey` failing (line 121); `nakDone`
its `NakWithDelay(5s)` and return (lines 124-126); `keyEmpty` an empty
key, which skips the lock entirely (line 130); `keyNonEmpty` a non-empty
key entering `getKeyMutex`; `lookupHit` / `lookupMiss` the read-locked
lookup (lines 156-162); `createHit` / `createNew` the write-locked
double-checked create (lines 164-171); `acquire` the `keyMutex.Lock()`
succeeding because nobody holds the mutex (line 131); `procReturn` is
`Handler.Process` returning (line 146); `finalizeLocked` /
`finalizeNoLock` the Ack-or-Nak group (lines 146-152) followed by entering
the deferred calls; `unlock` the deferred `keyMutex.Unlock()`; `release`
the deferred `<-ps.semaphore`; after it the goroutine is `done`. -/
inductive Step : SysState → SysState → Prop where
  | checkActiveTrue (s : SysState) :
      s.disp = .top → s.active = true →
      Step s { s with disp := .fetching }
  | checkActiveFalse (s : SysState) :
      s.disp = .top → s.active = false →
      Step s { s with disp := .exited }
  | fetchTimeout (s : SysState) :
      s.disp = .fetching →
      Step s { s with disp := .top }
  | fetchErr (s : SysState) :
      s.disp = .fetching →
      Step s { s with disp := .sleeping }
  | sleepDone (s : SysState) :
      s.disp = .sleeping →
      Step s { s with disp := .top }
  | fetchOk (s : SysState) (msgs : List MsgSpec) :
      s.disp = .fetching → s.unsubscribed = false →
      msgs.length ≤ s.cfg.batchSize.toNat →
      Step s { s with disp := .dispatching msgs }
  | dispatchOne (s : SysState) (m : MsgSpec) (rest : List MsgSpec) :
      s.disp = .dispatching (m :: rest) → s.semCount < s.maxC →
      Step s { s with disp := .dispatching rest,
                      semCount := s.semCount + 1,
                      tasks := updFn s.tasks s.nextTask (some (.start m)),
                      nextTask := s.nextTask + 1 }
  | dispatchDone (s : SysState) :
      s.disp = .dispatching [] →
      Step s { s with disp := .top }
  | stopActive (s : SysState) :
      s.active = true →
      Step s { s with active := false, unsubscribed := true }
  | stopNoop (s : SysState) :
      s.active = false →
      Step s s
  | keyErr (s : SysState) (t : TaskId) (e : GoError) :
      s.tasks t = some (.start (.error e)) →
      Step s { s with tasks := updFn s.tasks t (some .nakKeyErr) }
  | nakDone (s : SysState) (t : TaskId) :
      s.tasks t = some .nakKeyErr →
      Step s { s with tasks := updFn s.tasks t (some .releaseSem) }
  | keyEmpty (s : SysState) (t : TaskId) :
      s.tasks t = some (.start (.ok "")) →
      Step s { s with tasks := updFn s.tasks t (some (.running "" none)) }
  | keyNonEmpty (s : SysState) (t : TaskId) (k : Key) :
      s.tasks t = some (.start (.ok k)) → k ≠ "" →
      Step s { s with tasks := updFn s.tasks t (some (.lockLookup k)) }
  | lookupHit (s : SysState) (t : TaskId) (k : Key) (lk : LockId) :
      s.tasks t = some (.lockLookup k) →
      lookupKey s.registry k = some lk →
      Step s { s with tasks := updFn s.tasks t (some (.lockWait k lk)) }
  | lookupMiss (s : SysState) (t : TaskId) (k : Key) :
      s.tasks t = some (.lockLookup k) →
      lookupKey s.registry k = none →
      Step s { s with tasks := updFn s.tasks t (some (.lockCreate k)) }
  | createHit (s : SysState) (t : TaskId) (k : Key) (lk : LockId) :
      s.tasks t = some (.lockCreate k) →
      lookupKey s.registry k = some lk →
      Step s { s with tasks := updFn s.tasks t (some (.lockWait k lk)) }
  | createNew (s : SysState) (t : TaskId) (k : Key) :
      s.tasks t = some (.lockCreate k) →
      lookupKey s.registry k = none →
      Step s { s with registry := (k, s.nextLock) :: s.registry,
                      nextLock := s.nextLock + 1,
                      tasks := updFn s.tasks t (some (.lockWait k s.nextLock)) }
  | acquire (s : SysState) (t : TaskId) (k : Key) (lk : LockId) :
      s.tasks t = some (.lockWait k lk) →
      s.heldBy lk = none →
      Step s { s with heldBy := updFn s.heldBy lk (some t),
                      tasks := updFn s.tasks t (some (.running k (some lk))) }
  | procReturn (s : SysState) (t : TaskId) (k : Key) (olk : Option LockId) :
      s.tasks t = some (.running k olk) →
      Step s { s with tasks := updFn s.tasks t (some (.finalizeMsg k olk)) }
  | finalizeLocked (s : SysState) (t : TaskId) (k : Key) (lk : LockId) :
      s.tasks t = some (.finalizeMsg k (some lk)) →
      Step s { s with tasks := updFn s.tasks t (some (.unlockKey lk)) }
  | finalizeNoLock (s : SysState) (t : TaskId) (k : Key) :
      s.tasks t = some (.finalizeMsg k none) →
      Step s { s with tasks := updFn s.tasks t (some .releaseSem) }
  | unlock (s : SysState) (t : TaskId) (lk : LockId) :
      s.tasks t = some (.unlockKey lk) →
      Step s { s with heldBy := updFn s.heldBy lk none,
                      tasks := updFn s.tasks t (some .releaseSem) }
  | release (s : SysState) (t : TaskId) :
      s.tasks t = some .releaseSem →
      Step s { s with semCount := s.semCount - 1,
                      tasks := updFn s.tasks t (some .done) }

/-- States reachable from a freshly constructed subscriber with defaulted
config `c`. -/
def Reachable (c : Config) (s : SysState) : Prop :=
  Relation.ReflTransGen Step (initState c) s

/-- An infinite execution: consecutive states are related by `Step`. -/
def Trace (tr : Nat → SysState) : Prop :=
  ∀ n, Step (tr n) (tr (n + 1))

/-- The step from `fetching` to `dispatching` — the dispatcher actually
obtained a batch of messages from the queue. -/
def DeliversBatch (s s' : SysState) : Prop :=
  s.disp = .fetching ∧ ∃ msgs, s'.disp = .dispatching msgs

/-- Results of the two queue-setup calls made by `NewPullSubscriber`:
`js.AddConsumer` and `js.PullSubscribe`. -/
structure QueueSetup where
  addConsumerError : Option GoError
  pullSubscribeError : Option GoError

/-- The external calls `NewPullSubscriber` can make, in order:
`js.AddConsumer(stream, config with Durable, AckExplicitPolicy,
FilterSubject, MaxDeliver)`, `js.PullSubscribe(subject, durable,
BindStream(stream))`, and launching `go ps.startDispatcher()`. -/
inductive SetupCall where
  | addConsumer (stream durable subject : String) (ackExplicit : Bool)
      (maxDeliver : Int)
  | pullSubscribe (subject durable stream : String)
  | startLoop
deriving DecidableEq

/-- Shallow embedding of `NewPullSubscriber` (`worker.go` lines 46-87):
applies the defaults, registers the consumer (`MaxDeliver: 5`,
`AckExplicitPolicy`), creates the pull subscription, and on success builds
the subscriber state and launches the dispatcher goroutine.  Returns the
result (the built state, or the first error) together with the list of
external calls performed. -/
def NewPullSubscriber (cfg : Config) (q : QueueSetup) :
    Except GoError SysState × List SetupCall :=
  let c := applyDefaults cfg
  let consumerCall :=
    SetupCall.addConsumer c.streamName c.durableName c.subject true 5
  match q.addConsumerError with
  | some e => (.error e, [consumerCall])
  | none =>
    let subCall := SetupCall.pullSubscribe c.subject c.durableName c.streamName
    match q.pullSubscribeError with
    | some e => (.error e, [consumerCall, subCall])
    | none => (.ok (initState c), [consumerCall, subCall, .startLoop])

/-- A goroutine slot that currently holds a semaphore slot: spawned and not
yet past its deferred `<-ps.semaphore`. -/
def isLive : Option ProcPhase → Bool
  | none => false
  | some .done => false
  | some _ => true

/-- A goroutine currently inside `Handler.Process`. -/
def isRunning : Option ProcPhase → Bool
  | some (.running _ _) => true
  | _ => false

/-- Number of `t < n` satisfying `p`. -/
def countUpTo (p : Nat → Bool) : Nat → Nat
  | 0 => 0
  | n + 1 => countUpTo p n + (if p n then 1 else 0)

lemma countUpTo_congr (p q : Nat → Bool) (n : Nat)
    (h : ∀ t, t < n → p t = q t) : countUpTo p n = countUpTo q n := by
  induction n with
  | zero => rfl
  | succ n ih =>
    simp only [countUpTo]
    rw [ih fun t ht => h t (Nat.lt_succ_of_lt ht), h n (Nat.lt_succ_self n)]

lemma countUpTo_upd (f : Nat → Bool) (t : Nat) (v : Bool) :
    ∀ n, t < n →
      countUpTo (fun j => if j = t then v else f j) n + (if f t then 1 else 0) =
        countUpTo f n + (if v then 1 else 0) := by
  intro n
  induction n with
  | zero => intro h; exact absurd h (Nat.not_lt_zero t)
  | succ n ih =>
    intro h
    rcases Nat.lt_succ_iff_lt_or_eq.mp h with h' | h'
    · have hne : n ≠ t := by omega
      simp only [countUpTo, if_neg hne]
      have := ih h'
      omega
    · subst h'
      have hc : countUpTo (fun j => if j = t then v else f j) t = countUpTo f t :=
        countUpTo_congr _ _ t fun j hj => by simp [Nat.ne_of_lt hj]
      simp [countUpTo, hc]
      omega

lemma countUpTo_pos (p : Nat → Bool) (t n : Nat) (ht : t < n) (hp : p t = true) :
    1 ≤ countUpTo p n := by
  induction n with
  | zero => omega
  | succ n ih =>
    rcases Nat.lt_succ_iff_lt_or_eq.mp ht with h | h
    · have := ih h
      simp only [countUpTo]
      omega
    · subst h
      simp [countUpTo, hp]

lemma countUpTo_le (p q : Nat → Bool) (n : Nat)
    (h : ∀ t, t < n → p t = true → q t = true) :
    countUpTo p n ≤ countUpTo q n := by
  induction n with
  | zero => exact Nat.le_refl _
  | succ n ih =>
    simp only [countUpTo]
    have h1 := ih fun t ht => h t (Nat.lt_succ_of_lt ht)
    by_cases hp : p n = true
    · simp [hp, h n (Nat.lt_succ_self n) hp]
      omega
    · simp [hp]
      omega

/-- Number of semaphore-slot-holding goroutines among tasks `< n`. -/
def liveCountF (f : TaskId → Option ProcPhase) (n : Nat) : Nat :=
  countUpTo (fun t => isLive (f t)) n

/-- Number of semaphore-slot-holding goroutines of the whole state. -/
def liveCount (s : SysState) : Nat := liveCountF s.tasks s.nextTask

/-- Number of goroutines currently inside `Handler.Process`. -/
def runningCount (s : SysState) : Nat :=
  countUpTo (fun t => isRunning (s.tasks t)) s.nextTask

lemma liveCountF_upd (f : TaskId → Option ProcPhase) (t : TaskId)
    (v : Option ProcPhase) (n : Nat) (ht : t < n) :
    liveCountF (updFn f t v) n + (if isLive (f t) then 1 else 0) =
      liveCountF f n + (if isLive v then 1 else 0) := by
  have he : (fun j => isLive (updFn f t v j)) =
      fun j => if j = t then isLive v else isLive (f j) := by
    funext j
    simp [updFn, apply_ite isLive]
  unfold liveCountF
  rw [show (fun j => isLive (updFn f t v j)) = _ from he]
  exact countUpTo_upd _ t _ n ht

lemma liveCountF_spawn (f : TaskId → Option ProcPhase) (n : Nat) (m : MsgSpec) :
    liveCountF (updFn f n (some (.start m))) (n + 1) = liveCountF f n + 1 := by
  have hc : countUpTo (fun t => isLive (updFn f n (some (.start m)) t)) n =
      countUpTo (fun t => isLive (f t)) n :=
    countUpTo_congr _ _ n fun j hj => by simp [updFn, Nat.ne_of_lt hj]
  unfold liveCountF
  simp only [countUpTo]
  rw [hc]
  simp [updFn, isLive]

lemma isRunning_isLive (o : Option ProcPhase) (h : isRunning o = true) :
    isLive o = true := by
  cases o with
  | none => exact Bool.noConfusion h
  | some ph => cases ph <;> first | rfl | exact Bool.noConfusion h

/-- Per-goroutine invariant tying the `running`/`finalizeMsg`/`unlockKey`
phases (and the lock-acquisition phases) of goroutine `t` to the key-lock
registry and to the mutex ownership map: a non-empty key is pending only
in the lock phases, a held lock is registered under the goroutine's key,
and an empty key never carries a lock. -/
def RunInv (reg : List (Key × LockId)) (held : LockId → Option TaskId)
    (t : TaskId) (k : Key) : Option LockId → Prop
  | none => k = ""
  | some lk => k ≠ "" ∧ lookupKey reg k = some lk ∧ held lk = some t

def PhaseInv (reg : List (Key × LockId)) (held : LockId → Option TaskId)
    (t : TaskId) : ProcPhase → Prop
  | .start _ => True
  | .nakKeyErr => True
  | .lockLookup k => k ≠ ""
  | .lockCreate k => k ≠ ""
  | .lockWait k lk => k ≠ "" ∧ lookupKey reg k = some lk
  | .running k olk => RunInv reg held t k olk
  | .finalizeMsg k olk => RunInv reg held t k olk
  | .unlockKey lk => held lk = some t
  | .releaseSem => True
  | .done => True

/-- The mutex identity a phase claims to hold, if any. -/
def phaseLock : ProcPhase → Option LockId
  | .running _ (some lk) => some lk
  | .finalizeMsg _ (some lk) => some lk
  | .unlockKey lk => some lk
  | _ => none

/-- The global invariant of the subscriber, preserved by every step. -/
structure Inv (s : SysState) : Prop where
  taskBound : ∀ t, s.nextTask ≤ t → s.tasks t = none
  regNodup : (s.registry.map Prod.fst).Nodup
  phase : ∀ t ph, s.tasks t = some ph → PhaseInv s.registry s.heldBy t ph
  pairing : liveCount s = s.semCount
  semBound : s.semCount ≤ s.maxC

lemma lookupKey_eq_none (reg : List (Key × LockId)) (k : Key) :
    lookupKey reg k = none ↔ k ∉ reg.map Prod.fst := by
  induction reg with
  | nil => simp [lookupKey]
  | cons p rest ih =>
    obtain ⟨k', lk⟩ := p
    by_cases h : k = k'
    · subst h
      simp [lookupKey]
    · simp [lookupKey, h, ih]

lemma lookupKey_prepend_other (reg : List (Key × LockId)) (k k' : Key)
    (lk : LockId) (hne : k' ≠ k) :
    lookupKey ((k, lk) :: reg) k' = lookupKey reg k' := by
  simp [lookupKey, hne]

lemma lookupKey_prepend_self (reg : List (Key × LockId)) (k : Key) (lk : LockId) :
    lookupKey ((k, lk) :: reg) k = some lk := by
  simp [lookupKey]

lemma PhaseInv_regMono (reg reg' : List (Key × LockId))
    (held : LockId → Option TaskId) (t : TaskId) (ph : ProcPhase)
    (hmono : ∀ k lk, lookupKey reg k = some lk → lookupKey reg' k = some lk)
    (h : PhaseInv reg held t ph) : PhaseInv reg' held t ph := by
  cases ph
  case lockWait k lk => exact ⟨h.1, hmono _ _ h.2⟩
  case running k olk =>
    cases olk with
    | none => exact h
    | some lk => exact ⟨h.1, hmono _ _ h.2.1, h.2.2⟩
  case finalizeMsg k olk =>
    cases olk with
    | none => exact h
    | some lk => exact ⟨h.1, hmono _ _ h.2.1, h.2.2⟩
  all_goals exact h

lemma PhaseInv_heldCongr (reg : List (Key × LockId))
    (held held' : LockId → Option TaskId) (t : TaskId) (ph : ProcPhase)
    (hagree : ∀ lk, phaseLock ph = some lk → held' lk = held lk)
    (h : PhaseInv reg held t ph) : PhaseInv reg held' t ph := by
  cases ph
  case running k olk =>
    cases olk with
    | none => exact h
    | some lk => exact ⟨h.1, h.2.1, (hagree lk rfl).trans h.2.2⟩
  case finalizeMsg k olk =>
    cases olk with
    | none => exact h
    | some lk => exact ⟨h.1, h.2.1, (hagree lk rfl).trans h.2.2⟩
  case unlockKey lk => exact (hagree lk rfl).trans h
  all_goals exact h

lemma PhaseInv_lock_held (reg : List (Key × LockId))
    (held : LockId → Option TaskId) (t : TaskId) (ph : ProcPhase) (lk : LockId)
    (h : PhaseInv reg held t ph) (hl : phaseLock ph = some lk) :
    held lk = some t := by
  cases ph
  case running k olk =>
    cases olk with
    | none => exact Option.noConfusion hl
    | some lk' =>
      injection hl with hl'
      subst hl'
      exact h.2.2
  case finalizeMsg k olk =>
    cases olk with
    | none => exact Option.noConfusion hl
    | some lk' =>
      injection hl with hl'
      subst hl'
      exact h.2.2
  case unlockKey lk' =>
    injection hl with hl'
    subst hl'
    exact h
  all_goals exact Option.noConfusion hl

lemma tasks_lt {s : SysState} (inv : Inv s) {t : TaskId} {ph : ProcPhase}
    (h : s.tasks t = some ph) : t < s.nextTask := by
  by_contra hc
  push_neg at hc
  rw [inv.taskBound t hc] at h
  exact Option.noConfusion h

lemma inv_init (c : Config) : Inv (initState c) := by
  refine ⟨fun t _ => rfl, by simp [initState], ?_, rfl, Nat.zero_le _⟩
  intro t ph h
  exact Option.noConfusion h

lemma updFn_self {β : Type} (f : Nat → β) (i : Nat) (v : β) : updFn f i v i = v := by
  simp [updFn]

lemma updFn_other {β : Type} (f : Nat → β) (i j : Nat) (v : β) (h : j ≠ i) :
    updFn f i v j = f j := by
  simp [updFn, h]

lemma liveCountF_swap (f : TaskId → Option ProcPhase) (t : TaskId)
    (oldPh newPh : ProcPhase) (n : Nat) (ht : t < n) (hf : f t = some oldPh)
    (hlive : isLive (some newPh) = isLive (some oldPh)) :
    liveCountF (updFn f t (some newPh)) n = liveCountF f n := by
  have h2 := liveCountF_upd f t (some newPh) n ht
  rw [hf, hlive] at h2
  exact Nat.add_right_cancel h2

/-- A task-phase update leaves every never-spawned slot empty. -/
lemma taskBound_upd {s : SysState} (inv : Inv s) {t : TaskId} {ph : ProcPhase}
    (v : Option ProcPhase) (hph : s.tasks t = some ph) :
    ∀ t', s.nextTask ≤ t' → updFn s.tasks t v t' = none := by
  intro t' h'
  have ht := tasks_lt inv hph
  have hne : t' ≠ t := Nat.ne_of_gt (lt_of_lt_of_le ht h')
  rw [updFn_other _ _ _ _ hne]
  exact inv.taskBound t' h'

/-- Replacing one live task's phase by another live phase that satisfies
its `PhaseInv` (with registry and ownership map unchanged) preserves the
invariant. -/
lemma inv_swap {s : SysState} (inv : Inv s) (t : TaskId)
    (oldPh newPh : ProcPhase) (hold : s.tasks t = some oldPh)
    (hlive : isLive (some newPh) = isLive (some oldPh))
    (hpi : PhaseInv s.registry s.heldBy t newPh) :
    Inv { s with tasks := updFn s.tasks t (some newPh) } := by
  have ht := tasks_lt inv hold
  refine ⟨taskBound_upd inv _ hold, inv.regNodup, ?_, ?_, inv.semBound⟩
  · intro t' ph' h'
    have h2 : updFn s.tasks t (some newPh) t' = some ph' := h'
    show PhaseInv s.registry s.heldBy t' ph'
    by_cases he : t' = t
    · subst he
      rw [updFn_self] at h2
      injection h2 with h2
      rw [← h2]
      exact hpi
    · rw [updFn_other _ _ _ _ he] at h2
      exact inv.phase t' ph' h2
  · show liveCountF (updFn s.tasks t (some newPh)) s.nextTask = s.semCount
    rw [liveCountF_swap s.tasks t oldPh newPh s.nextTask ht hold hlive]
    exact inv.pairing

/-- Every step of the system preserves the global invariant. -/
lemma inv_step {s s' : SysState} (inv : Inv s) (h : Step s s') : Inv s' := by
  cases h
  case checkActiveTrue hd ha =>
    exact ⟨inv.taskBound, inv.regNodup, inv.phase, inv.pairing, inv.semBound⟩
  case checkActiveFalse hd ha =>
    exact ⟨inv.taskBound, inv.regNodup, inv.phase, inv.pairing, inv.semBound⟩
  case fetchTimeout hd =>
    exact ⟨inv.taskBound, inv.regNodup, inv.phase, inv.pairing, inv.semBound⟩
  case fetchErr hd =>
    exact ⟨inv.taskBound, inv.regNodup, inv.phase, inv.pairing, inv.semBound⟩
  case sleepDone hd =>
    exact ⟨inv.taskBound, inv.regNodup, inv.phase, inv.pairing, inv.semBound⟩
  case fetchOk msgs hd hu hl =>
    exact ⟨inv.taskBound, inv.regNodup, inv.phase, inv.pairing, inv.semBound⟩
  case dispatchDone hd =>
    exact ⟨inv.taskBound, inv.regNodup, inv.phase, inv.pairing, inv.semBound⟩
  case stopActive ha =>
    exact ⟨inv.taskBound, inv.regNodup, inv.phase, inv.pairing, inv.semBound⟩
  case stopNoop ha => exact inv
  case dispatchOne m rest hd hsem =>
    refine ⟨?_, inv.regNodup, ?_, ?_, ?_⟩
    · intro t' h'
      have hb : s.nextTask + 1 ≤ t' := h'
      show updFn s.tasks s.nextTask (some (.start m)) t' = none
      have hne : t' ≠ s.nextTask :=
        Nat.ne_of_gt (lt_of_lt_of_le (Nat.lt_succ_self _) hb)
      rw [updFn_other _ _ _ _ hne]
      exact inv.taskBound t' (le_trans (Nat.le_succ _) hb)
    · intro t' ph' h'
      have h2 : updFn s.tasks s.nextTask (some (.start m)) t' = some ph' := h'
      show PhaseInv s.registry s.heldBy t' ph'
      by_cases he : t' = s.nextTask
      · subst he
        rw [updFn_self] at h2
        injection h2 with h2
        rw [← h2]
        trivial
      · rw [updFn_other _ _ _ _ he] at h2
        exact inv.phase t' ph' h2
    · show liveCountF (updFn s.tasks s.nextTask (some (.start m)))
        (s.nextTask + 1) = s.semCount + 1
      rw [liveCountF_spawn s.tasks s.nextTask m]
      have hp : liveCountF s.tasks s.nextTask = s.semCount := inv.pairing
      rw [hp]
    · show s.semCount + 1 ≤ s.maxC
      exact hsem
  case keyErr t e hph =>
    exact inv_swap inv t _ _ hph rfl trivial
  case nakDone t hph =>
    exact inv_swap inv t _ _ hph rfl trivial
  case keyEmpty t hph =>
    exact inv_swap inv t _ _ hph rfl rfl
  case keyNonEmpty t k hph hk =>
    exact inv_swap inv t _ _ hph rfl hk
  case lookupHit t k lk hph hlk =>
    exact inv_swap inv t _ _ hph rfl
      ⟨show (k ≠ "") from inv.phase t _ hph, hlk⟩
  case lookupMiss t k hph hlk =>
    exact inv_swap inv t _ _ hph rfl (show (k ≠ "") from inv.phase t _ hph)
  case createHit t k lk hph hlk =>
    exact inv_swap inv t _ _ hph rfl
      ⟨show (k ≠ "") from inv.phase t _ hph, hlk⟩
  case procReturn t k olk hph =>
    exact inv_swap inv t _ _ hph (by cases olk <;> rfl)
      (show RunInv s.registry s.heldBy t k olk from inv.phase t _ hph)
  case finalizeLocked t k lk hph =>
    exact inv_swap inv t _ _ hph rfl
      (show (k ≠ "") ∧ lookupKey s.registry k = some lk ∧
          s.heldBy lk = some t from inv.phase t _ hph).2.2
  case finalizeNoLock t k hph =>
    exact inv_swap inv t _ _ hph rfl trivial
  case createNew t k hph hmiss =>
    have ht := tasks_lt inv hph
    have hkne : k ≠ "" := inv.phase t _ hph
    have hmono : ∀ k' lk', lookupKey s.registry k' = some lk' →
        lookupKey ((k, s.nextLock) :: s.registry) k' = some lk' := by
      intro k' lk' hs
      have hne : k' ≠ k := by
        intro he
        subst he
        rw [hmiss] at hs
        exact Option.noConfusion hs
      rw [lookupKey_prepend_other _ _ _ _ hne]
      exact hs
    refine ⟨taskBound_upd inv _ hph, ?_, ?_, ?_, inv.semBound⟩
    · show (((k, s.nextLock) :: s.registry).map Prod.fst).Nodup
      rw [List.map_cons]
      exact List.Nodup.cons ((lookupKey_eq_none _ _).mp hmiss) inv.regNodup
    · intro t' ph' h'
      have h2 : updFn s.tasks t (some (.lockWait k s.nextLock)) t' = some ph' := h'
      show PhaseInv ((k, s.nextLock) :: s.registry) s.heldBy t' ph'
      by_cases he : t' = t
      · subst he
        rw [updFn_self] at h2
        injection h2 with h2
        rw [← h2]
        exact ⟨hkne, lookupKey_prepend_self _ _ _⟩
      · rw [updFn_other _ _ _ _ he] at h2
        exact PhaseInv_regMono _ _ _ _ _ hmono (inv.phase t' ph' h2)
    · show liveCountF (updFn s.tasks t (some (.lockWait k s.nextLock)))
        s.nextTask = s.semCount
      rw [liveCountF_swap s.tasks t _ (.lockWait k s.nextLock)
        s.nextTask ht hph rfl]
      exact inv.pairing
  case acquire t k lk hph hnone =>
    have ht := tasks_lt inv hph
    obtain ⟨hkne, hlkup⟩ :
        (k ≠ "") ∧ lookupKey s.registry k = some lk := inv.phase t _ hph
    refine ⟨taskBound_upd inv _ hph, inv.regNodup, ?_, ?_, inv.semBound⟩
    · intro t' ph' h'
      have h2 : updFn s.tasks t (some (.running k (some lk))) t' = some ph' := h'
      show PhaseInv s.registry (updFn s.heldBy lk (some t)) t' ph'
      by_cases he : t' = t
      · subst he
        rw [updFn_self] at h2
        injection h2 with h2
        rw [← h2]
        exact ⟨hkne, hlkup, updFn_self _ _ _⟩
      · rw [updFn_other _ _ _ _ he] at h2
        have hpi := inv.phase t' ph' h2
        apply PhaseInv_heldCongr _ _ _ _ _ _ hpi
        intro lk' hl'
        have hheld := PhaseInv_lock_held _ _ _ _ _ hpi hl'
        have hne2 : lk' ≠ lk := by
          intro heq
          subst heq
          rw [hnone] at hheld
          exact Option.noConfusion hheld
        exact updFn_other _ _ _ _ hne2
    · show liveCountF (updFn s.tasks t (some (.running k (some lk))))
        s.nextTask = s.semCount
      rw [liveCountF_swap s.tasks t _ (.running k (some lk))
        s.nextTask ht hph rfl]
      exact inv.pairing
  case unlock t lk hph =>
    have ht := tasks_lt inv hph
    have hheld : s.heldBy lk = some t := inv.phase t _ hph
    refine ⟨taskBound_upd inv _ hph, inv.regNodup, ?_, ?_, inv.semBound⟩
    · intro t' ph' h'
      have h2 : updFn s.tasks t (some .releaseSem) t' = some ph' := h'
      show PhaseInv s.registry (updFn s.heldBy lk none) t' ph'
      by_cases he : t' = t
      · subst he
        rw [updFn_self] at h2
        injection h2 with h2
        rw [← h2]
        trivial
      · rw [updFn_other _ _ _ _ he] at h2
        have hpi := inv.phase t' ph' h2
        apply PhaseInv_heldCongr _ _ _ _ _ _ hpi
        intro lk' hl'
        have hh := PhaseInv_lock_held _ _ _ _ _ hpi hl'
        have hne2 : lk' ≠ lk := by
          intro heq
          subst heq
          rw [hheld] at hh
          injection hh with hh2
          exact he hh2.symm
        exact updFn_other _ _ _ _ hne2
    · show liveCountF (updFn s.tasks t (some .releaseSem)) s.nextTask =
        s.semCount
      rw [liveCountF_swap s.tasks t _ .releaseSem s.nextTask ht hph rfl]
      exact inv.pairing
  case release t hph =>
    have ht := tasks_lt inv hph
    refine ⟨taskBound_upd inv _ hph, inv.regNodup, ?_, ?_, ?_⟩
    · intro t' ph' h'
      have h2 : updFn s.tasks t (some .done) t' = some ph' := h'
      show PhaseInv s.registry s.heldBy t' ph'
      by_cases he : t' = t
      · subst he
        rw [updFn_self] at h2
        injection h2 with h2
        rw [← h2]
        trivial
      · rw [updFn_other _ _ _ _ he] at h2
        exact inv.phase t' ph' h2
    · show liveCountF (updFn s.tasks t (some .done)) s.nextTask =
        s.semCount - 1
      have h2 := liveCountF_upd s.tasks t (some .done) s.nextTask ht
      rw [hph] at h2
      have e1 : (if isLive (some ProcPhase.releaseSem) then (1 : Nat) else 0) = 1 := rfl
      have e2 : (if isLive (some ProcPhase.done) then (1 : Nat) else 0) = 0 := rfl
      rw [e1, e2, Nat.add_zero] at h2
      have hp : liveCountF s.tasks s.nextTask = s.semCount := inv.pairing
      have h3 : s.semCount =
          liveCountF (updFn s.tasks t (some .done)) s.nextTask + 1 := by
        rw [← hp]
        exact h2.symm
      rw [h3, Nat.add_sub_cancel]
    · show s.semCount - 1 ≤ s.maxC
      exact le_trans (Nat.sub_le _ _) inv.semBound


/-- The global invariant holds in every reachable state. -/
lemma inv_reachable {c : Config} {s : SysState} (h : Reachable c s) : Inv s := by
  induction h with
  | refl => exact inv_init c
  | tail _ hstep ih => exact inv_step ih hstep

lemma step_active_mono {s s' : SysState} (h : Step s s')
    (ha : s.active = false) : s'.active = false := by
  cases h
  case stopActive h' => rfl
  all_goals exact ha

lemma step_unsub_mono {s s' : SysState} (h : Step s s')
    (hu : s.unsubscribed = true) : s'.unsubscribed = true := by
  cases h
  case stopActive h' => rfl
  all_goals exact hu

lemma step_active_change {s s' : SysState} (h : Step s s')
    (hne : s'.active ≠ s.active) :
    s.active = true ∧ s'.active = false ∧ s'.unsubscribed = true := by
  cases h
  case stopActive ha => exact ⟨ha, rfl, rfl⟩
  all_goals exact absurd rfl hne

lemma step_exit {s s' : SysState} (h : Step s s') (he : s'.disp = .exited) :
    s.disp = .exited ∨ (s.disp = .top ∧ s.active = false) := by
  cases h
  case checkActiveFalse hd ha => exact Or.inr ⟨hd, ha⟩
  all_goals first
    | exact Or.inl he
    | exact DispPhase.noConfusion he

lemma step_no_deliver {s s' : SysState} (h : Step s s')
    (hun : s.unsubscribed = true) : ¬ DeliversBatch s s' := by
  rintro ⟨hf, msgs, hd⟩
  cases h
  case fetchOk msgs' hdisp hsub hlen => exact Bool.noConfusion (hsub.symm.trans hun)
  case dispatchOne m rest hdisp hsem =>
    exact DispPhase.noConfusion (hdisp.symm.trans hf)
  case dispatchDone hdisp => exact DispPhase.noConfusion (hdisp.symm.trans hf)
  all_goals first
    | exact DispPhase.noConfusion hd
    | exact DispPhase.noConfusion (hf.symm.trans hd)

lemma step_registry_suffix {s s' : SysState} (h : Step s s') :
    ∃ pre, s'.registry = pre ++ s.registry := by
  cases h
  case createNew t k hph hmiss => exact ⟨[(k, s.nextLock)], rfl⟩
  all_goals exact ⟨[], rfl⟩

lemma step_lookup_mono {s s' : SysState} (h : Step s s') (k : Key) (lk : LockId)
    (hl : lookupKey s.registry k = some lk) :
    lookupKey s'.registry k = some lk := by
  cases h
  case createNew t k' hph hmiss =>
    have hne : k ≠ k' := by
      intro he
      subst he
      rw [hmiss] at hl
      exact Option.noConfusion hl
    show lookupKey ((k', s.nextLock) :: s.registry) k = some lk
    rw [lookupKey_prepend_other _ _ _ _ hne]
    exact hl
  all_goals exact hl

lemma trace_unsub_mono {tr : Nat → SysState} (htr : Trace tr) {i j : Nat}
    (hij : i ≤ j) (hu : (tr i).unsubscribed = true) :
    (tr j).unsubscribed = true := by
  induction j, hij using Nat.le_induction with
  | base => exact hu
  | succ j hij ih => exact step_unsub_mono (htr j) ih

/-- A concrete configuration, used to exercise the model on an explicit
run. -/
def cfgW : Config where
  streamName := "events"
  subject := "events.created"
  durableName := "worker-1"
  batchSize := 1
  maxConcurrent := 1
  maxWait := secondNs

def w0 : SysState := initState cfgW

def w1 : SysState := { w0 with disp := .fetching }

def w2 : SysState := { w1 with disp := .dispatching [Except.ok "a"] }

def w3 : SysState :=
  { w2 with disp := .dispatching [], semCount := w2.semCount + 1,
            tasks := updFn w2.tasks w2.nextTask (some (.start (.ok "a"))),
            nextTask := w2.nextTask + 1 }

def w4 : SysState := { w3 with tasks := updFn w3.tasks 0 (some (.lockLookup "a")) }

def w5 : SysState := { w4 with tasks := updFn w4.tasks 0 (some (.lockCreate "a")) }

def w6 : SysState :=
  { w5 with registry := ("a", w5.nextLock) :: w5.registry,
            nextLock := w5.nextLock + 1,
            tasks := updFn w5.tasks 0 (some (.lockWait "a" w5.nextLock)) }

def w7 : SysState :=
  { w6 with heldBy := updFn w6.heldBy 0 (some 0),
            tasks := updFn w6.tasks 0 (some (.running "a" (some 0))) }

/-- The state after running `Stop` on a fresh subscriber. -/
def wStop : SysState := { w0 with active := false, unsubscribed := true }

lemma stepW01 : Step w0 w1 := Step.checkActiveTrue w0 rfl rfl

lemma stepW12 : Step w1 w2 := Step.fetchOk w1 [Except.ok "a"] rfl rfl (by decide)

lemma stepW23 : Step w2 w3 := Step.dispatchOne w2 (Except.ok "a") [] rfl (by decide)

lemma stepW34 : Step w3 w4 := Step.keyNonEmpty w3 0 "a" (by decide) (by decide)

lemma stepW45 : Step w4 w5 := Step.lookupMiss w4 0 "a" (by decide) (by decide)

lemma stepW56 : Step w5 w6 := Step.createNew w5 0 "a" (by decide) (by decide)

lemma stepW67 : Step w6 w7 := Step.acquire w6 0 "a" 0 (by decide) (by decide)

/-- The explicit run reaches `w7`: one message with key "a" fetched,
dispatched, its lock created and acquired, its handler running. -/
lemma reachW7 : Reachable cfgW w7 :=
  Relation.ReflTransGen.tail
    (Relation.ReflTransGen.tail
      (Relation.ReflTransGen.tail
        (Relation.ReflTransGen.tail
          (Relation.ReflTransGen.tail
            (Relation.ReflTransGen.tail
              (Relation.ReflTransGen.tail Relation.ReflTransGen.refl stepW01)
              stepW12)
            stepW23)
          stepW34)
        stepW45)
      stepW56)
    stepW67

lemma done_preserved {s : SysState} {t t' : TaskId} {ph : ProcPhase}
    (v : Option ProcPhase) (hdone : s.tasks t = some .done)
    (hph : s.tasks t' = some ph) (hne : ph ≠ .done) :
    updFn s.tasks t' v t = some .done := by
  have hnt : t ≠ t' := by
    intro he
    subst he
    rw [hdone] at hph
    injection hph with hph
    exact hne hph.symm
  rw [updFn_other _ _ _ _ hnt]
  exact hdone

/-- A goroutine that has released its slot and exited stays exited. -/
lemma step_done_mono {s s' : SysState} (inv : Inv s) (h : Step s s')
    (t : TaskId) (hdone : s.tasks t = some .done) :
    s'.tasks t = some .done := by
  cases h
  case dispatchOne m rest hd hsem =>
    have ht := tasks_lt inv hdone
    have hne : t ≠ s.nextTask := Nat.ne_of_lt ht
    show updFn s.tasks s.nextTask (some (.start m)) t = some .done
    rw [updFn_other _ _ _ _ hne]
    exact hdone
  case keyErr t' e hph =>
    exact done_preserved _ hdone hph fun hx => ProcPhase.noConfusion hx
  case nakDone t' hph =>
    exact done_preserved _ hdone hph fun hx => ProcPhase.noConfusion hx
  case keyEmpty t' hph =>
    exact done_preserved _ hdone hph fun hx => ProcPhase.noConfusion hx
  case keyNonEmpty t' k hph hk =>
    exact done_preserved _ hdone hph fun hx => ProcPhase.noConfusion hx
  case lookupHit t' k lk hph hlk =>
    exact done_preserved _ hdone hph fun hx => ProcPhase.noConfusion hx
  case lookupMiss t' k hph hlk =>
    exact done_preserved _ hdone hph fun hx => ProcPhase.noConfusion hx
  case createHit t' k lk hph hlk =>
    exact done_preserved _ hdone hph fun hx => ProcPhase.noConfusion hx
  case createNew t' k hph hlk =>
    exact done_preserved _ hdone hph fun hx => ProcPhase.noConfusion hx
  case acquire t' k lk hph hnone =>
    exact done_preserved _ hdone hph fun hx => ProcPhase.noConfusion hx
  case procReturn t' k olk hph =>
    exact done_preserved _ hdone hph fun hx => ProcPhase.noConfusion hx
  case finalizeLocked t' k lk hph =>
    exact done_preserved _ hdone hph fun hx => ProcPhase.noConfusion hx
  case finalizeNoLock t' k hph =>
    exact done_preserved _ hdone hph fun hx => ProcPhase.noConfusion hx
  case unlock t' lk hph =>
    exact done_preserved _ hdone hph fun hx => ProcPhase.noConfusion hx
  case release t' hph =>
    exact done_preserved _ hdone hph fun hx => ProcPhase.noConfusion hx
  all_goals exact hdone

/-- C1: in every reachable state of the subscriber, a `processMessage`
goroutine that is inside `Handler.Process` with a non-empty locking key
holds exactly the mutex registered for that key (so the lock is held for
the whole duration of the `Process` invocation), a goroutine inside
`Process` with a non-empty key always holds some lock, and two goroutines
are never inside `Process` with the same non-empty key at the same time;
distinct keys are not ordered relative to each other (their goroutines
interleave freely in `Step`). -/
theorem C1_key_mutual_exclusion (c : Config) (s : SysState)
    (h : Reachable c s) :
    (∀ t k olk, s.tasks t = some (.running k olk) → k ≠ "" →
      ∀ lk, olk = some lk →
        lookupKey s.registry k = some lk ∧ s.heldBy lk = some t) ∧
    (∀ t k olk, s.tasks t = some (.running k olk) → k ≠ "" → olk ≠ none) ∧
    (∀ t t' k olk olk', s.tasks t = some (.running k olk) →
      s.tasks t' = some (.running k olk') → k ≠ "" → t = t') := by
  have inv := inv_reachable h
  refine ⟨?_, ?_, ?_⟩
  · intro t k olk hru hk lk holk
    subst holk
    have hpi : RunInv s.registry s.heldBy t k (some lk) := inv.phase t _ hru
    exact ⟨hpi.2.1, hpi.2.2⟩
  · intro t k olk hru hk hnone
    subst hnone
    have hpi : RunInv s.registry s.heldBy t k none := inv.phase t _ hru
    exact hk hpi
  · intro t t' k olk olk' hru hru' hk
    have hpi : RunInv s.registry s.heldBy t k olk := inv.phase t _ hru
    have hpi' : RunInv s.registry s.heldBy t' k olk' := inv.phase t' _ hru'
    cases olk with
    | none => exact absurd hpi hk
    | some lk =>
      cases olk' with
      | none => exact absurd hpi' hk
      | some lk' =>
        have h1 := hpi.2.1
        have h2 := hpi'.2.1
        rw [h1] at h2
        injection h2 with h2
        subst h2
        have h3 := hpi.2.2
        have h4 := hpi'.2.2
        rw [h3] at h4
        exact Option.some.inj h4

theorem C1_key_mutual_exclusion_witness : w7.heldBy 0 = some 0 :=
  ((C1_key_mutual_exclusion cfgW w7 reachW7).1 0 "a" (some 0) (by decide)
    (by decide) 0 rfl).2

/-- C2: in every reachable state, the number of goroutines currently
holding a semaphore slot equals the semaphore occupancy (each message's
slot is acquired exactly once by the dispatcher at spawn and the pairing
is maintained by the single release on every exit path), the occupancy
never exceeds the capacity `MaxConcurrent`, hence the number of
simultaneously active `Handler.Process` invocations never exceeds
`MaxConcurrent` either; and a goroutine that has released its slot stays
released, so no slot is ever released twice. -/
theorem C2_semaphore_bound (c : Config) (s : SysState) (h : Reachable c s) :
    liveCount s = s.semCount ∧ s.semCount ≤ s.maxC ∧
    runningCount s ≤ s.maxC ∧
    (∀ t s', s.tasks t = some .done → Step s s' →
      s'.tasks t = some .done) := by
  have inv := inv_reachable h
  refine ⟨inv.pairing, inv.semBound, ?_, ?_⟩
  · have hle : runningCount s ≤ liveCount s :=
      countUpTo_le _ _ _ fun t _ hr => isRunning_isLive _ hr
    calc runningCount s ≤ liveCount s := hle
    _ = s.semCount := inv.pairing
    _ ≤ s.maxC := inv.semBound
  · intro t s' hdone hstep
    exact step_done_mono inv hstep t hdone

theorem C2_semaphore_bound_witness : w7.semCount ≤ w7.maxC :=
  (C2_semaphore_bound cfgW w7 reachW7).2.1

/-- C5: the dispatcher loop never terminates because of a fetch outcome:
the only transition into `exited` is the check at the top of an iteration
observing the stopped flag; from the fetch point a timeout step goes
straight back to the top of the loop, a non-timeout error goes to the
5-second sleep and the sleep returns to the top — and no step taken from
the fetch point ever exits the loop. -/
theorem C5_fetch_loop_persistence :
    (∀ s s' : SysState, Step s s' → s'.disp = .exited →
      s.disp = .exited ∨ (s.disp = .top ∧ s.active = false)) ∧
    (∀ s : SysState, s.disp = .fetching → Step s { s with disp := .top }) ∧
    (∀ s : SysState, s.disp = .fetching → Step s { s with disp := .sleeping }) ∧
    (∀ s : SysState, s.disp = .sleeping → Step s { s with disp := .top }) ∧
    (∀ s s' : SysState, s.disp = .fetching → Step s s' →
      s'.disp ≠ .exited) := by
  refine ⟨fun s s' h he => step_exit h he, Step.fetchTimeout, Step.fetchErr,
    Step.sleepDone, ?_⟩
  intro s s' hf hstep he
  rcases step_exit hstep he with h1 | ⟨h2, _⟩
  · rw [hf] at h1
    exact DispPhase.noConfusion h1
  · rw [hf] at h2
    exact DispPhase.noConfusion h2

theorem C5_fetch_loop_persistence_witness :
    Step w1 { w1 with disp := DispPhase.top } :=
  C5_fetch_loop_persistence.2.1 w1 rfl

/-- C6: along any execution, from the moment the subscription has been
cancelled by `Stop` (so in particular after `Stop()` has returned), no
later step of the dispatcher obtains a batch of messages from the queue:
a fetch attempted on the cancelled subscription can only fail. -/
theorem C6_no_fetch_after_stop (tr : Nat → SysState) (htr : Trace tr)
    (i : Nat) (hstop : (tr i).unsubscribed = true) :
    ∀ j, i ≤ j → ¬ DeliversBatch (tr j) (tr (j + 1)) := by
  intro j hij
  exact step_no_deliver (htr j) (trace_unsub_mono htr hij hstop)

theorem C6_no_fetch_after_stop_witness : ¬ DeliversBatch wStop wStop :=
  C6_no_fetch_after_stop (fun _ => wStop) (fun _ => Step.stopNoop wStop rfl)
    0 rfl 0 (Nat.le_refl 0)

/-- C7: the dispatcher state is a two-state machine: construction returns
an Active (and subscribed) state; a stopped subscriber never becomes
active again; the only step that changes the active flag is the
Active-to-Stopped transition of `Stop`, which also cancels the
subscription; `Stop` is enabled in every active state and does exactly
that; a second `Stop` on a stopped state is a no-op step; and along any
execution the subscription is cancelled at most once. -/
theorem C7_lifecycle :
    (∀ cfg q s calls, NewPullSubscriber cfg q = (.ok s, calls) →
      s.active = true ∧ s.unsubscribed = false) ∧
    (∀ s s' : SysState, Step s s' → s.active = false → s'.active = false) ∧
    (∀ s s' : SysState, Step s s' → s'.active ≠ s.active →
      s.active = true ∧ s'.active = false ∧ s'.unsubscribed = true) ∧
    (∀ s : SysState, s.active = true →
      Step s { s with active := false, unsubscribed := true }) ∧
    (∀ s : SysState, s.active = false → Step s s) ∧
    (∀ tr, Trace tr → ∀ i j,
      (tr i).unsubscribed = false → (tr (i + 1)).unsubscribed = true →
      (tr j).unsubscribed = false → (tr (j + 1)).unsubscribed = true →
      i = j) := by
  refine ⟨?_, fun s s' h ha => step_active_mono h ha,
    fun s s' h hne => step_active_change h hne, Step.stopActive,
    Step.stopNoop, ?_⟩
  · intro cfg q s calls hnew
    unfold NewPullSubscriber at hnew
    rcases hq1 : q.addConsumerError with _ | e
    · rw [hq1] at hnew
      rcases hq2 : q.pullSubscribeError with _ | e2
      · rw [hq2] at hnew
        simp only at hnew
        injection hnew with h1 h2
        injection h1 with h1
        rw [← h1]
        exact ⟨rfl, rfl⟩
      · rw [hq2] at hnew
        simp only at hnew
        injection hnew with h1 h2
        exact Except.noConfusion h1
    · rw [hq1] at hnew
      simp only at hnew
      injection hnew with h1 h2
      exact Except.noConfusion h1
  · intro tr htr i j hi0 hi1 hj0 hj1
    by_contra hne
    rcases Nat.lt_or_ge i j with hlt | hge
    · have hmono : (tr j).unsubscribed = true :=
        trace_unsub_mono htr (by omega : i + 1 ≤ j) hi1
      rw [hj0] at hmono
      exact Bool.noConfusion hmono
    · have hlt : j < i := by omega
      have hmono : (tr i).unsubscribed = true :=
        trace_unsub_mono htr (by omega : j + 1 ≤ i) hj1
      rw [hi0] at hmono
      exact Bool.noConfusion hmono

theorem C7_lifecycle_witness : Step w0 wStop :=
  C7_lifecycle.2.2.2.1 w0 rfl

/-- C8: in every reachable state the key-lock registry holds at most one
entry per key — so the double-checked creation in `getKeyMutex` never
creates a second mutex for a key, and every lookup of the same key yields
the identical mutex; steps only ever prepend registry entries (none is
removed, the registry grows monotonically) and an existing key-to-mutex
binding is stable under every step; and a goroutine processing a message
whose key is empty holds no key lock at all while in `Handler.Process`. -/
theorem C8_registry (c : Config) (s : SysState) (h : Reachable c s) :
    (s.registry.map Prod.fst).Nodup ∧
    (∀ t olk, s.tasks t = some (.running "" olk) → olk = none) ∧
    (∀ s', Step s s' →
      (∃ pre, s'.registry = pre ++ s.registry) ∧
      (∀ k lk, lookupKey s.registry k = some lk →
        lookupKey s'.registry k = some lk)) := by
  have inv := inv_reachable h
  refine ⟨inv.regNodup, ?_, ?_⟩
  · intro t olk hru
    have hpi : RunInv s.registry s.heldBy t "" olk := inv.phase t _ hru
    cases olk with
    | none => rfl
    | some lk => exact absurd rfl hpi.1
  · intro s' hstep
    exact ⟨step_registry_suffix hstep, fun k lk => step_lookup_mono hstep k lk⟩

theorem C8_registry_witness : (w7.registry.map Prod.fst).Nodup :=
  (C8_registry cfgW w7 reachW7).1

/-- C3: for a message whose key extraction succeeded, finalization follows
the `Process` outcome: on success the message is Ack-ed exactly once and
never Nak-ed, and a failed Ack is logged but not retried and triggers no
Nak; on a `Process` error — including the 5-minute context deadline, which
surfaces as the error `Process` returns — the message is Nak-ed exactly
once with the 15-second delay, never with the 5-second one, and never
Ack-ed. -/
theorem C3_finalization (b : MsgBehaviour) (k : String)
    (hk : b.getLockingKey = .ok k) :
    (b.processResult = none →
      (processMessage b).count Event.ackCall = 1 ∧
      (∀ d, Event.nakWithDelay d ∉ processMessage b) ∧
      (b.ackResult.isSome = true → Event.logError ∈ processMessage b)) ∧
    (∀ e, b.processResult = some e →
      (processMessage b).count (Event.nakWithDelay 15) = 1 ∧
      Event.nakWithDelay 5 ∉ processMessage b ∧
      Event.ackCall ∉ processMessage b) := by
  constructor
  · intro hpr
    rcases hac : b.ackResult with _ | e2 <;> by_cases hke : k = "" <;>
      simp [processMessage, hk, hpr, hac, hke, List.count_cons]
  · intro e hpr
    by_cases hke : k = "" <;>
      simp [processMessage, hk, hpr, hke, List.count_cons]

def bW3 : MsgBehaviour where
  getLockingKey := .ok "k"
  processResult := none
  ackResult := none
  nakResult := none

theorem C3_finalization_witness : (processMessage bW3).count Event.ackCall = 1 :=
  ((C3_finalization bW3 "k" rfl).1 rfl).1

/-- C4: for a message whose `GetLockingKey` fails, `processMessage` logs,
Nak-s the message with the 5-second delay, and returns (its deferred
semaphore release still runs): the trace is exactly log, Nak(5s), release;
in particular `Handler.Process` is never invoked and no Nak with any other
delay is issued. -/
theorem C4_key_extraction_failure (b : MsgBehaviour) (e : GoError)
    (he : b.getLockingKey = .error e) :
    processMessage b =
      [Event.logError, Event.nakWithDelay 5, Event.semRelease] ∧
    (∀ m, Event.processInvoked m ∉ processMessage b) ∧
    (∀ d, d ≠ 5 → Event.nakWithDelay d ∉ processMessage b) := by
  have hpm : processMessage b =
      [Event.logError, Event.nakWithDelay 5, Event.semRelease] := by
    simp [processMessage, he]
  refine ⟨hpm, ?_, ?_⟩
  · intro m
    rw [hpm]
    simp
  · intro d hd
    rw [hpm]
    simp [hd]

def bW4 : MsgBehaviour where
  getLockingKey := .error (.other "no key header")
  processResult := none
  ackResult := none
  nakResult := none

theorem C4_key_extraction_failure_witness :
    processMessage bW4 =
      [Event.logError, Event.nakWithDelay 5, Event.semRelease] :=
  (C4_key_extraction_failure bW4 (.other "no key header") rfl).1

/-- C10: the error returned by `NakWithDelay` is discarded on both Nak
paths: the trace of `processMessage` is identical for every value of the
Nak result (so the error is neither logged, nor retried, nor branched on),
and on a Nak path whose Nak call itself fails no finalize call reaches the
queue successfully — redelivery then rests entirely on the queue's
acknowledgement timeout. -/
theorem C10_nak_error_discarded (b : MsgBehaviour) (r : Option GoError) :
    processMessage { b with nakResult := r } = processMessage b ∧
    (isNakPath b = true → b.nakResult.isSome = true →
      queueTerminalEvents b = []) := by
  constructor
  · rfl
  · intro hp hn
    obtain ⟨nr, hnr⟩ := Option.isSome_iff_exists.mp hn
    rcases hgk : b.getLockingKey with e | k
    · simp [queueTerminalEvents, processMessage, hgk, hnr]
    · have hpr : b.processResult.isSome = true := by
        rw [isNakPath, hgk] at hp
        exact hp
      obtain ⟨pe, hpe⟩ := Option.isSome_iff_exists.mp hpr
      by_cases hke : k = "" <;>
        simp [queueTerminalEvents, processMessage, hgk, hnr, hpe, hke]

def bW10 : MsgBehaviour where
  getLockingKey := .ok "k"
  processResult := some (.other "handler failed")
  ackResult := none
  nakResult := some (.other "nak failed")

theorem C10_nak_error_discarded_witness : queueTerminalEvents bW10 = [] :=
  (C10_nak_error_discarded bW10 none).2 rfl rfl

/-- C9: construction applies the validation defaults before any use — a
batch size that is not positive becomes 10, a max-concurrent that is not
positive becomes 25, an unset (zero) max wait becomes 30 seconds, positive
or set values are kept; the durable consumer is registered first, with
explicit acks and MaxDeliver fixed at 5; an error from consumer
registration or from subscription creation is returned and the dispatcher
loop is never launched; on success the loop is launched on a state storing
the defaulted config; and no step ever modifies the stored config or the
derived semaphore capacity. -/
lemma applyDefaults_batchSize (cfg : Config) :
    (applyDefaults cfg).batchSize =
      if cfg.batchSize ≤ 0 then 10 else cfg.batchSize := by
  simp [applyDefaults, apply_ite Config.batchSize,
    apply_ite Config.maxConcurrent, apply_ite Config.maxWait]

lemma applyDefaults_maxConcurrent (cfg : Config) :
    (applyDefaults cfg).maxConcurrent =
      if cfg.maxConcurrent ≤ 0 then 25 else cfg.maxConcurrent := by
  simp [applyDefaults, apply_ite Config.batchSize,
    apply_ite Config.maxConcurrent, apply_ite Config.maxWait]

lemma applyDefaults_maxWait (cfg : Config) :
    (applyDefaults cfg).maxWait =
      if cfg.maxWait = 0 then 30 * secondNs else cfg.maxWait := by
  simp [applyDefaults, apply_ite Config.batchSize,
    apply_ite Config.maxConcurrent, apply_ite Config.maxWait]

theorem C9_construction (cfg : Config) (q : QueueSetup) :
    ((cfg.batchSize ≤ 0 → (applyDefaults cfg).batchSize = 10) ∧
     (0 < cfg.batchSize → (applyDefaults cfg).batchSize = cfg.batchSize) ∧
     (cfg.maxConcurrent ≤ 0 → (applyDefaults cfg).maxConcurrent = 25) ∧
     (0 < cfg.maxConcurrent →
       (applyDefaults cfg).maxConcurrent = cfg.maxConcurrent) ∧
     (cfg.maxWait = 0 → (applyDefaults cfg).maxWait = 30 * secondNs) ∧
     (cfg.maxWait ≠ 0 → (applyDefaults cfg).maxWait = cfg.maxWait)) ∧
    ((NewPullSubscriber cfg q).2.head? =
      some (.addConsumer (applyDefaults cfg).streamName
        (applyDefaults cfg).durableName (applyDefaults cfg).subject true 5)) ∧
    (∀ e, q.addConsumerError = some e →
      (NewPullSubscriber cfg q).1 = .error e ∧
      SetupCall.startLoop ∉ (NewPullSubscriber cfg q).2) ∧
    (∀ e, q.addConsumerError = none → q.pullSubscribeError = some e →
      (NewPullSubscriber cfg q).1 = .error e ∧
      SetupCall.startLoop ∉ (NewPullSubscriber cfg q).2) ∧
    (q.addConsumerError = none → q.pullSubscribeError = none →
      (NewPullSubscriber cfg q).1 = .ok (initState (applyDefaults cfg)) ∧
      SetupCall.startLoop ∈ (NewPullSubscriber cfg q).2) ∧
    (∀ s s' : SysState, Step s s' → s'.cfg = s.cfg ∧ s'.maxC = s.maxC) := by
  refine ⟨?_, ?_, ?_, ?_, ?_, ?_⟩
  · refine ⟨?_, ?_, ?_, ?_, ?_, ?_⟩
    · intro h
      rw [applyDefaults_batchSize, if_pos h]
    · intro h
      rw [applyDefaults_batchSize, if_neg (not_le.mpr h)]
    · intro h
      rw [applyDefaults_maxConcurrent, if_pos h]
    · intro h
      rw [applyDefaults_maxConcurrent, if_neg (not_le.mpr h)]
    · intro h
      rw [applyDefaults_maxWait, if_pos h]
    · intro h
      rw [applyDefaults_maxWait, if_neg h]
  · rcases hq1 : q.addConsumerError with _ | e
    · rcases hq2 : q.pullSubscribeError with _ | e2 <;>
        simp [NewPullSubscriber, hq1, hq2]
    · simp [NewPullSubscriber, hq1]
  · intro e he
    simp [NewPullSubscriber, he]
  · intro e he1 he2
    simp [NewPullSubscriber, he1, he2]
  · intro he1 he2
    simp [NewPullSubscriber, he1, he2]
  · intro s s' hstep
    cases hstep <;> exact ⟨rfl, rfl⟩

def cfgW9 : Config where
  streamName := "events"
  subject := "events.created"
  durableName := "worker-1"
  batchSize := 0
  maxConcurrent := -3
  maxWait := 0

theorem C9_construction_witness : (applyDefaults cfgW9).batchSize = 10 :=
  (C9_construction cfgW9 ⟨none, none⟩).1.1 (by decide)

end Worker
